import Mathlib

/-!
# Template-matching currency classifier

A shallow embedding of `src/CurrencyDetection_C/currency_detector_wrapper.cpp`
(`load_templates`, `match_note`, `run_webcam_detection`) together with the
properties of it that the specification states.

Conventions of the embedding.

* The process-wide `static std::vector<NoteTemplate> templates` is passed
  explicitly as a `List NoteTemplate`.
* The calls into OpenCV and `std::filesystem` are not code of the repository.
  Their results are taken as parameters (`OpenCV`, `FileSystem`); only what the
  OpenCV documentation fixes (the size of the result of `cv::matchTemplate`,
  the size of the result of `cv::resize`) is written down as a definition.
* Correlation scores (`float`/`double` in the source) are rationals. The
  results of `TM_CCOEFF_NORMED` on 8-bit images are finite, so the two
  comparisons of `match_note` are comparisons of numbers; the constant `0.7`
  is `7/10`.
* A C++ exception leaving an `extern "C"` function is the result `none`.
-/

namespace CurrencyDetection

/-! ## Data model -/

/-- Single-channel 8-bit image (`cv::Mat` of type `CV_8UC1`): a row-major pixel buffer
with its dimensions. -/
structure Mat where
  rows : Nat
  cols : Nat
  data : List Nat
deriving DecidableEq

/-- The test `cv::Mat::empty()`: no buffer or no element. -/
def Mat.empty (m : Mat) : Bool :=
  m.data.isEmpty || m.rows * m.cols == 0

/-- Three-channel camera frame as delivered by `cap >> frame`. -/
structure Frame where
  rows : Nat
  cols : Nat
  bgr : List Nat
deriving DecidableEq

/-- The test `frame.empty()` of the capture loop. -/
def Frame.empty (f : Frame) : Bool :=
  f.bgr.isEmpty || f.rows * f.cols == 0

/-- The `struct NoteTemplate` of the source. -/
structure NoteTemplate where
  denomination : String
  image : Mat
deriving DecidableEq

/-- The OpenCV computations the program calls, as parameters.

* `ccoeffNormed image templ x y` is the value `R(x,y)` of `TM_CCOEFF_NORMED` for the
  template placed with its top-left corner at column `x`, row `y` of the image;
* `undersized image templ` is what `cv::matchTemplate` does when the image is smaller
  than the template in some dimension (`none`: it throws);
* `resize src width height` is the pixel buffer of `cv::resize(src, dst, Size(width,height))`;
* `resizeFrame` is the same for a colour frame, `cvtColor` is `COLOR_BGR2GRAY`. -/
structure OpenCV where
  ccoeffNormed : Mat → Mat → Nat → Nat → ℚ
  undersized : Mat → Mat → Option (List ℚ)
  resize : Mat → Nat → Nat → List Nat
  resizeFrame : Frame → Nat → Nat → List Nat
  cvtColor : Frame → List Nat

/-- The call `cv::matchTemplate(image, templ, result, cv::TM_CCOEFF_NORMED)`: for an image
at least as large as the template the result has `(rows - templ.rows + 1)` rows and
`(cols - templ.cols + 1)` columns, one value per placement of the template. -/
def matchTemplate (cv : OpenCV) (image templ : Mat) : Option (List ℚ) :=
  if templ.rows ≤ image.rows ∧ templ.cols ≤ image.cols then
    some ((List.range (image.rows - templ.rows + 1)).flatMap fun y =>
      (List.range (image.cols - templ.cols + 1)).map fun x => cv.ccoeffNormed image templ x y)
  else
    cv.undersized image templ

/-- The call `cv::minMaxLoc(result, &minVal, &maxVal)`; it fails on a matrix without
elements. -/
def minMaxLoc : List ℚ → Option (ℚ × ℚ)
  | [] => none
  | v :: vs => some (vs.foldl min v, vs.foldl max v)

/-! ## `match_note` -/

/-- The `for(const auto &tpl : templates)` loop of `match_note`, with the two locals
`maxScore` and `bestNote` as accumulators. -/
def matchLoop (cv : OpenCV) (note : Mat) : List NoteTemplate → ℚ → String → Option (ℚ × String)
  | [], maxScore, bestNote => some (maxScore, bestNote)
  | tpl :: rest, maxScore, bestNote =>
    match matchTemplate cv note tpl.image with
    | none => none
    | some result =>
      match minMaxLoc result with
      | none => none
      | some (_, maxVal) =>
        if maxVal > maxScore then matchLoop cv note rest maxVal tpl.denomination
        else matchLoop cv note rest maxScore bestNote

/-- The body of `match_note` with the constant of its last comparison as `threshold`. -/
def match_note_at (threshold : ℚ) (cv : OpenCV) (templates : List NoteTemplate)
    (image_data : List Nat) (rows cols : Nat) : Option String :=
  let note : Mat := ⟨rows, cols, image_data⟩
  match matchLoop cv note templates 0 "None" with
  | none => none
  | some (maxScore, bestNote) =>
    if maxScore < threshold then some "None" else some bestNote

/-- The function `match_note(image_data, rows, cols)`: threshold `0.7`. -/
def match_note (cv : OpenCV) (templates : List NoteTemplate)
    (image_data : List Nat) (rows cols : Nat) : Option String :=
  match_note_at (7 / 10) cv templates image_data rows cols

/-! ## `load_templates` -/

/-- The part of the file system `load_templates` reads: `fs::exists`, the entries of
`fs::directory_iterator` in scan order, and `cv::imread(path, IMREAD_GRAYSCALE)`
(an undecodable file gives an empty `Mat`). `directory_iterator path` is `none` when
listing the path throws `filesystem_error`: the path is not a directory or cannot be
read. -/
structure FileSystem where
  pathExists : String → Bool
  directory_iterator : String → Option (List String)
  imread : String → Mat

/-- The `cv::resize(img, img, cv::Size(200,100))` of `load_templates`: width 200,
height 100. -/
def resizeTemplate (cv : OpenCV) (img : Mat) : Mat :=
  ⟨100, 200, cv.resize img 200 100⟩

/-- The inner `for(const auto &file : fs::directory_iterator(folderPath))` loop, with the
local `count` and the vector being filled. -/
def scanFolder (cv : OpenCV) (fs : FileSystem) (noteValue : String) :
    List String → Nat → List NoteTemplate → List NoteTemplate
  | [], _, templates => templates
  | file :: rest, count, templates =>
    if count ≥ 10 then templates
    else
      let img := fs.imread file
      if img.empty then scanFolder cv fs noteValue rest (count + 1) templates
      else scanFolder cv fs noteValue rest (count + 1)
        (templates ++ [⟨noteValue, resizeTemplate cv img⟩])

/-- The vector `denominations` of `load_templates`. -/
def denominations : List String := ["100", "200", "500"]

/-- The call `templates.clear()`. -/
def clear (_templates : List NoteTemplate) : List NoteTemplate := []

/-- The outer `for(auto &noteValue : denominations)` loop. The exception of a listing
that throws is caught nowhere: it ends the loop and the function. -/
def loadLoop (cv : OpenCV) (fs : FileSystem) (datasetFolder : String) :
    List String → List NoteTemplate → Option (List NoteTemplate)
  | [], templates => some templates
  | noteValue :: rest, templates =>
    let folderPath := datasetFolder ++ "/" ++ noteValue
    if !fs.pathExists folderPath then loadLoop cv fs datasetFolder rest templates
    else
      match fs.directory_iterator folderPath with
      | none => none
      | some files =>
        loadLoop cv fs datasetFolder rest (scanFolder cv fs noteValue files 0 templates)

/-- The function `load_templates(datasetFolder)`: the first argument after the
environment is the content of `templates` before the call, the result its content
after, `none` when the call is left by an exception. The closing line on `std::cout`
reports the length of the result. -/
def load_templates (cv : OpenCV) (fs : FileSystem) (templates : List NoteTemplate)
    (datasetFolder : String) : Option (List NoteTemplate) :=
  loadLoop cv fs datasetFolder denominations (clear templates)

/-! ## `run_webcam_detection` -/

/-- What `run_webcam_detection` does to the outside, in program order: a line on
`std::cout`, the overlay and the two windows of a frame, a shell command, and the
end of the process by an exception nothing catches. -/
inductive Event where
  | print (line : String)
  | putText (text : String)
  | imshow (window : String)
  | system (cmd : String)
  | terminate
deriving DecidableEq

/-- One pass of the `while(true)` loop as the camera and the keyboard see it: the frame
`cap >> frame` delivers and the value of `cv::waitKey(1)`. -/
structure Capture where
  frame : Frame
  key : Int

/-- The command string `"say " + detected + " rupee note detected"`. -/
def sayCommand (detected : String) : String :=
  "say " ++ detected ++ " rupee note detected"

/-- The announce step, lines 93-97: the new value of `lastAnnounced` and the events of
the step. -/
def announce (lastAnnounced detected : String) : String × List Event :=
  if detected ≠ "None" ∧ detected ≠ lastAnnounced then
    (detected, [Event.system (sayCommand detected)])
  else
    (lastAnnounced, [])

/-- The `resize` to `Size(200,100)` followed by `cvtColor(note, note, COLOR_BGR2GRAY)`. -/
def toNote (cv : OpenCV) (frame : Frame) : Mat :=
  let resized : Frame := ⟨100, 200, cv.resizeFrame frame 200 100⟩
  ⟨resized.rows, resized.cols, cv.cvtColor resized⟩

/-- The `while(true)` loop over the passes the camera delivers, with the local
`lastAnnounced`. The list is a finite stretch of the run; the loop leaves it early on
ESC (key 27). -/
def webcamLoop (cv : OpenCV) (templates : List NoteTemplate) :
    String → List Capture → List Event
  | _, [] => []
  | lastAnnounced, c :: rest =>
    if c.frame.empty then webcamLoop cv templates lastAnnounced rest
    else
      let note := toNote cv c.frame
      match match_note cv templates note.data note.rows note.cols with
      | none => [Event.terminate]
      | some detected =>
        let step := announce lastAnnounced detected
        [Event.putText detected, Event.imshow "Currency Detection", Event.imshow "Warped Note"]
          ++ step.2
          ++ (if c.key = 27 then [] else webcamLoop cv templates step.1 rest)

/-- The function `run_webcam_detection()`: `cameraOpened` is `cap.isOpened()`. -/
def run_webcam_detection (cv : OpenCV) (templates : List NoteTemplate)
    (cameraOpened : Bool) (captures : List Capture) : List Event :=
  if templates.isEmpty then [Event.print "[ERROR] Templates not loaded!"]
  else if !cameraOpened then [Event.print "[ERROR] Cannot open webcam!"]
  else
    Event.print "[INFO] Webcam Currency Detection Started. Press ESC to exit."
      :: webcamLoop cv templates "" captures

/-- The shell commands among the events, in order. -/
def systemCalls : List Event → List String
  | [] => []
  | Event.system cmd :: rest => cmd :: systemCalls rest
  | _ :: rest => systemCalls rest

/-! ## Scores and stores -/

/-- The score of one template against a probe as `match_note` computes it: the maximum of
the result of `cv::matchTemplate`. -/
def templateScore (cv : OpenCV) (note : Mat) (tpl : NoteTemplate) : Option ℚ :=
  match matchTemplate cv note tpl.image with
  | none => none
  | some result =>
    match minMaxLoc result with
    | none => none
    | some (_, maxVal) => some maxVal

/-- What every store built by `load_templates` satisfies: each template carries one of the
three denominations and a 200x100 image (100 rows, 200 columns). -/
def ValidStore (templates : List NoteTemplate) : Prop :=
  ∀ tpl ∈ templates, tpl.denomination ∈ denominations ∧ tpl.image.rows = 100 ∧ tpl.image.cols = 200

/-- The first pixel of an image (0 for an image without buffer). -/
def firstPixel (m : Mat) : Nat := m.data.headD 0

/-- The pixel at row `y`, column `x` of an image (0 outside the buffer). -/
def pixelAt (m : Mat) (y x : Nat) : Nat := m.data.getD (y * m.cols + x) 0

/-- A concrete stand-in for the OpenCV computations, to evaluate the definitions on
concrete inputs: the score of a placement compares the image pixel under the top-left
corner of the template with the template's first pixel (1 when equal, falling linearly
with the difference), undersized images are refused, resizing fills with the first
pixel. -/
def sampleCv : OpenCV where
  ccoeffNormed image templ x y :=
    ((255 - (max (pixelAt image y x) (firstPixel templ) - min (pixelAt image y x) (firstPixel templ)) : Nat) : ℚ) / 255
  undersized _ _ := none
  resize src width height := List.replicate (width * height) (firstPixel src)
  resizeFrame src width height := List.replicate (3 * (width * height)) (src.bgr.headD 0)
  cvtColor src := List.replicate (src.rows * src.cols) (src.bgr.headD 0)

/-- A 200x100 image of one grey level. -/
def flat (level : Nat) : Mat := ⟨100, 200, List.replicate 20000 level⟩

/-! ## Specification-side definitions and concrete inputs -/

/-- The placements of a template in an image at least as large, row by row. -/
def placements (note templ : Mat) : List (Nat × Nat) :=
  (List.range (note.rows - templ.rows + 1)).flatMap fun y =>
    (List.range (note.cols - templ.cols + 1)).map fun x => (x, y)

/-- The store of the tie example: the second and the third template hold the same image. -/
def tieStore : List NoteTemplate :=
  [⟨"100", flat 10⟩, ⟨"200", flat 200⟩, ⟨"500", flat 200⟩]

/-- A probe of 101 rows and 200 columns: one black row above the pixels of `flat 200`. -/
def tallProbe : Mat := ⟨101, 200, List.replicate 200 0 ++ List.replicate 20000 200⟩

/-- The detection results of the passes the loop completes, in order: an empty frame
yields none, a failing `match_note` or ESC ends the loop. -/
def detections (cv : OpenCV) (templates : List NoteTemplate) : List Capture → List String
  | [] => []
  | c :: rest =>
    if c.frame.empty then detections cv templates rest
    else
      match match_note cv templates (toNote cv c.frame).data (toNote cv c.frame).rows
          (toNote cv c.frame).cols with
      | none => []
      | some detected =>
        detected :: (if c.key = 27 then [] else detections cv templates rest)

/-- The debounce state machine of the specification over a sequence of detection results:
the state is the last announced label, a result is announced when it is not "None" and
differs from the state, and then becomes the state. -/
def debounce : String → List String → List String
  | _, [] => []
  | last, d :: ds =>
    if d ≠ "None" ∧ d ≠ last then d :: debounce d ds else debounce last ds

/-! ## The matching loop -/

theorem matchLoop_cons (cv : OpenCV) (note : Mat) (tpl : NoteTemplate)
    (rest : List NoteTemplate) (m : ℚ) (b : String) :
    matchLoop cv note (tpl :: rest) m b =
      match templateScore cv note tpl with
      | none => none
      | some s =>
        if s > m then matchLoop cv note rest s tpl.denomination
        else matchLoop cv note rest m b := by
  cases h1 : matchTemplate cv note tpl.image with
  | none => simp only [matchLoop, templateScore, h1]
  | some result =>
    cases h2 : minMaxLoc result with
    | none => simp only [matchLoop, templateScore, h1, h2]
    | some p =>
      obtain ⟨lo, hi⟩ := p
      simp only [matchLoop, templateScore, h1, h2]

/-- The loop returns as soon as every template can be scored. -/
theorem matchLoop_isSome (cv : OpenCV) (note : Mat) :
    ∀ (ts : List NoteTemplate) (m : ℚ) (b : String),
      (∀ t ∈ ts, ∃ s, templateScore cv note t = some s) →
      ∃ r, matchLoop cv note ts m b = some r := by
  intro ts
  induction ts with
  | nil => intro m b _; exact ⟨(m, b), rfl⟩
  | cons tpl rest ih =>
    intro m b h
    obtain ⟨s, hs⟩ := h tpl (List.mem_cons_self _ _)
    have hrest : ∀ t ∈ rest, ∃ s, templateScore cv note t = some s :=
      fun t ht => h t (List.mem_cons_of_mem _ ht)
    rw [matchLoop_cons, hs]
    by_cases hgt : s > m
    · simp only [hgt, if_true]; exact ih s tpl.denomination hrest
    · simp only [hgt, if_false]; exact ih m b hrest

/-- What the loop leaves in `maxScore` and `bestNote`: an upper bound of the start value
and of every score; either nothing exceeded the start value and both locals are
untouched, or `bestNote` belongs to the first template that reaches the maximum. -/
theorem matchLoop_spec (cv : OpenCV) (note : Mat) :
    ∀ (ts : List NoteTemplate) (m : ℚ) (b : String) (m' : ℚ) (b' : String),
      matchLoop cv note ts m b = some (m', b') →
      (∀ t ∈ ts, ∃ s, templateScore cv note t = some s ∧ s ≤ m') ∧ m ≤ m' ∧
      ((m' = m ∧ b' = b) ∨
       (m < m' ∧ ∃ pre t post, ts = pre ++ t :: post ∧ templateScore cv note t = some m' ∧
          b' = t.denomination ∧ ∀ u ∈ pre, ∃ su, templateScore cv note u = some su ∧ su < m')) := by
  intro ts
  induction ts with
  | nil =>
    intro m b m' b' h
    simp only [matchLoop, Option.some.injEq, Prod.mk.injEq] at h
    refine ⟨by simp, le_of_eq h.1, Or.inl ⟨h.1.symm, h.2.symm⟩⟩
  | cons tpl rest ih =>
    intro m b m' b' h
    rw [matchLoop_cons] at h
    cases hs : templateScore cv note tpl with
    | none => rw [hs] at h; simp at h
    | some s =>
      rw [hs] at h
      by_cases hgt : s > m
      · simp only [hgt, if_true] at h
        obtain ⟨hall, hle, hcase⟩ := ih s tpl.denomination m' b' h
        refine ⟨?_, le_trans (le_of_lt hgt) hle, Or.inr ⟨lt_of_lt_of_le hgt hle, ?_⟩⟩
        · intro t ht
          rcases List.mem_cons.mp ht with rfl | ht
          · exact ⟨s, hs, hle⟩
          · exact hall t ht
        · rcases hcase with ⟨hm, hb⟩ | ⟨hlt, pre, t, post, hsplit, hscore, hb, hpre⟩
          · refine ⟨[], tpl, rest, rfl, ?_, hb, by simp⟩
            rw [hs, hm]
          · refine ⟨tpl :: pre, t, post, by rw [hsplit]; rfl, hscore, hb, ?_⟩
            intro u hu
            rcases List.mem_cons.mp hu with rfl | hu
            · exact ⟨s, hs, hlt⟩
            · exact hpre u hu
      · simp only [hgt, if_false] at h
        have hsm : s ≤ m := not_lt.mp hgt
        obtain ⟨hall, hle, hcase⟩ := ih m b m' b' h
        refine ⟨?_, hle, ?_⟩
        · intro t ht
          rcases List.mem_cons.mp ht with rfl | ht
          · exact ⟨s, hs, le_trans hsm hle⟩
          · exact hall t ht
        · rcases hcase with hsame | ⟨hlt, pre, t, post, hsplit, hscore, hb, hpre⟩
          · exact Or.inl hsame
          · refine Or.inr ⟨hlt, tpl :: pre, t, post, by rw [hsplit]; rfl, hscore, hb, ?_⟩
            intro u hu
            rcases List.mem_cons.mp hu with rfl | hu
            · exact ⟨s, hs, lt_of_le_of_lt hsm hlt⟩
            · exact hpre u hu

/-! ## Scores of one template -/

theorem foldl_max_ge (vs : List ℚ) : ∀ v : ℚ, v ≤ vs.foldl max v ∧ ∀ w ∈ vs, w ≤ vs.foldl max v := by
  induction vs with
  | nil => intro v; simp
  | cons a as ih =>
    intro v
    obtain ⟨h1, h2⟩ := ih (max v a)
    refine ⟨le_trans (le_max_left v a) h1, ?_⟩
    intro w hw
    rcases List.mem_cons.mp hw with rfl | hw
    · exact le_trans (le_max_right v w) h1
    · exact h2 w hw

theorem foldl_max_mem (vs : List ℚ) : ∀ v : ℚ, vs.foldl max v = v ∨ vs.foldl max v ∈ vs := by
  induction vs with
  | nil => intro v; simp
  | cons a as ih =>
    intro v
    rcases ih (max v a) with h | h
    · rcases max_choice v a with hc | hc
      · left; simp only [List.foldl_cons]; rw [h, hc]
      · right; simp only [List.foldl_cons]; rw [h, hc]; exact List.mem_cons_self _ _
    · right; exact List.mem_cons_of_mem _ h

/-- The second component of `minMaxLoc` is the greatest element of a non-empty matrix. -/
theorem minMaxLoc_max (vs : List ℚ) (hne : vs ≠ []) :
    ∃ lo hi, minMaxLoc vs = some (lo, hi) ∧ hi ∈ vs ∧ ∀ w ∈ vs, w ≤ hi := by
  cases vs with
  | nil => exact absurd rfl hne
  | cons v rest =>
    refine ⟨rest.foldl min v, rest.foldl max v, rfl, ?_, ?_⟩
    · rcases foldl_max_mem rest v with h | h
      · rw [h]; exact List.mem_cons_self _ _
      · exact List.mem_cons_of_mem _ h
    · intro w hw
      rcases List.mem_cons.mp hw with rfl | hw
      · exact (foldl_max_ge rest w).1
      · exact (foldl_max_ge rest v).2 w hw

theorem mem_placements (note templ : Mat) (x y : Nat) :
    (x, y) ∈ placements note templ ↔
      y < note.rows - templ.rows + 1 ∧ x < note.cols - templ.cols + 1 := by
  simp only [placements, List.mem_flatMap, List.mem_map, List.mem_range, Prod.mk.injEq]
  constructor
  · rintro ⟨a, ha, c, hc, rfl, rfl⟩
    exact ⟨ha, hc⟩
  · rintro ⟨hy, hx⟩
    exact ⟨y, hy, x, hx, rfl, rfl⟩

/-- For an image at least as large as the template, the score of the template is the
greatest value of `R(x,y)` over all placements. -/
theorem templateScore_sliding (cv : OpenCV) (note : Mat) (tpl : NoteTemplate)
    (hr : tpl.image.rows ≤ note.rows) (hc : tpl.image.cols ≤ note.cols) :
    ∃ s, templateScore cv note tpl = some s ∧
      (∃ x y, y < note.rows - tpl.image.rows + 1 ∧ x < note.cols - tpl.image.cols + 1 ∧
        s = cv.ccoeffNormed note tpl.image x y) ∧
      (∀ x y, y < note.rows - tpl.image.rows + 1 → x < note.cols - tpl.image.cols + 1 →
        cv.ccoeffNormed note tpl.image x y ≤ s) := by
  have hmt : matchTemplate cv note tpl.image =
      some ((placements note tpl.image).map fun p => cv.ccoeffNormed note tpl.image p.1 p.2) := by
    simp only [matchTemplate, hr, hc, and_self, if_true, placements, List.map_flatMap,
      List.map_map]
    rfl
  have hne : ((placements note tpl.image).map fun p => cv.ccoeffNormed note tpl.image p.1 p.2) ≠ [] := by
    have h0 : ((0 : Nat), (0 : Nat)) ∈ placements note tpl.image := by
      rw [mem_placements]; omega
    intro hnil
    rw [List.map_eq_nil_iff] at hnil
    rw [hnil] at h0
    exact absurd h0 (List.not_mem_nil _)
  obtain ⟨lo, hi, hmm, hmem, hmax⟩ := minMaxLoc_max _ hne
  refine ⟨hi, ?_, ?_, ?_⟩
  · simp only [templateScore, hmt, hmm]
  · obtain ⟨p, hp, hpe⟩ := List.mem_map.mp hmem
    obtain ⟨x, y⟩ := p
    rw [mem_placements] at hp
    exact ⟨x, y, hp.1, hp.2, hpe.symm⟩
  · intro x y hy hx
    apply hmax
    exact List.mem_map.mpr ⟨(x, y), (mem_placements _ _ _ _).mpr ⟨hy, hx⟩, rfl⟩

/-- For a probe of the template's dimensions there is one placement, and the score is
`R(0,0)`. -/
theorem templateScore_same_size (cv : OpenCV) (note : Mat) (tpl : NoteTemplate)
    (hr : tpl.image.rows = note.rows) (hc : tpl.image.cols = note.cols) :
    templateScore cv note tpl = some (cv.ccoeffNormed note tpl.image 0 0) := by
  obtain ⟨s, hs, ⟨x, y, hy, hx, hxy⟩, _⟩ :=
    templateScore_sliding cv note tpl (le_of_eq hr) (le_of_eq hc)
  have hy0 : y = 0 := by omega
  have hx0 : x = 0 := by omega
  rw [hs, hxy, hy0, hx0]

/-! ## `match_note` as a whole -/

theorem match_note_at_eq (threshold : ℚ) (cv : OpenCV) (templates : List NoteTemplate)
    (image_data : List Nat) (rows cols : Nat) :
    match_note_at threshold cv templates image_data rows cols =
      (matchLoop cv ⟨rows, cols, image_data⟩ templates 0 "None").map
        fun p => if p.1 < threshold then "None" else p.2 := by
  simp only [match_note_at]
  cases h : matchLoop cv ⟨rows, cols, image_data⟩ templates 0 "None" with
  | none => rfl
  | some p =>
    obtain ⟨m, b⟩ := p
    by_cases hlt : m < threshold <;> simp [hlt]

/-- A non-empty list has an element that maximises a rational-valued function. -/
theorem exists_best {α : Type} (f : α → ℚ) :
    ∀ l : List α, l ≠ [] → ∃ b ∈ l, ∀ t ∈ l, f t ≤ f b := by
  intro l
  induction l with
  | nil => intro h; exact absurd rfl h
  | cons a rest ih =>
    intro _
    by_cases hrest : rest = []
    · subst hrest
      exact ⟨a, List.mem_cons_self _ _, by simp⟩
    · obtain ⟨b, hb, hmax⟩ := ih hrest
      by_cases hab : f a ≤ f b
      · refine ⟨b, List.mem_cons_of_mem _ hb, ?_⟩
        intro t ht
        rcases List.mem_cons.mp ht with rfl | ht
        · exact hab
        · exact hmax t ht
      · refine ⟨a, List.mem_cons_self _ _, ?_⟩
        intro t ht
        rcases List.mem_cons.mp ht with rfl | ht
        · exact le_refl _
        · exact le_trans (hmax t ht) (le_of_lt (not_le.mp hab))

theorem denominations_ne_None (d : String) (h : d ∈ denominations) : d ≠ "None" := by
  intro hd
  subst hd
  revert h
  decide

/-- On a store of 200x100 templates every template can be scored against a probe of at
least that size. -/
theorem templateScore_isSome_of_valid (cv : OpenCV) (note : Mat) (templates : List NoteTemplate)
    (hvalid : ValidStore templates) (hr : 100 ≤ note.rows) (hc : 200 ≤ note.cols) :
    ∀ t ∈ templates, ∃ s, templateScore cv note t = some s := by
  intro t ht
  obtain ⟨_, h1, h2⟩ := hvalid t ht
  obtain ⟨s, hs, _⟩ := templateScore_sliding cv note t (by rw [h1]; exact hr) (by rw [h2]; exact hc)
  exact ⟨s, hs⟩

/-! ## Evaluation lemmas for the concrete inputs -/

theorem firstPixel_flat (l : Nat) : firstPixel (flat l) = l := rfl

theorem pixelAt_flat_origin (l : Nat) : pixelAt ⟨100, 200, (flat l).data⟩ 0 0 = l := rfl

theorem flat_rows (l : Nat) : (flat l).rows = 100 := rfl

theorem flat_cols (l : Nat) : (flat l).cols = 200 := rfl

theorem range_one : List.range 1 = [0] := rfl

theorem range_two : List.range 2 = [0, 1] := rfl

theorem validStore_flat (a b : Nat) : ValidStore [⟨"100", flat a⟩, ⟨"200", flat b⟩] := by
  intro t ht
  simp only [List.mem_cons, List.mem_singleton, List.not_mem_nil, or_false] at ht
  rcases ht with rfl | rfl
  · exact ⟨by simp [denominations], rfl, rfl⟩
  · exact ⟨by simp [denominations], rfl, rfl⟩

/-! ## Claims about `match_note` -/

/-- C1. For a non-empty store of 200x100 templates and a probe of 100 rows and 200
columns, `match_note` returns; the scores have a maximum, attained by some template; the
result is "None" exactly when that maximum is below 7/10; and as soon as some template
scores at least 7/10 the result is the denomination of a stored template, not "None". -/
theorem match_note_none_iff_max_below_threshold (cv : OpenCV) (templates : List NoteTemplate)
    (image_data : List Nat) (rows cols : Nat)
    (hne : templates ≠ []) (hvalid : ValidStore templates)
    (hrows : rows = 100) (hcols : cols = 200) :
    ∃ r best, match_note cv templates image_data rows cols = some r ∧
      best ∈ templates ∧
      (∀ t ∈ templates, cv.ccoeffNormed ⟨rows, cols, image_data⟩ t.image 0 0 ≤
        cv.ccoeffNormed ⟨rows, cols, image_data⟩ best.image 0 0) ∧
      (r = "None" ↔ cv.ccoeffNormed ⟨rows, cols, image_data⟩ best.image 0 0 < 7 / 10) ∧
      ((∃ t ∈ templates, 7 / 10 ≤ cv.ccoeffNormed ⟨rows, cols, image_data⟩ t.image 0 0) →
        r ≠ "None" ∧ ∃ t ∈ templates, r = t.denomination) := by
  subst hrows hcols
  set note : Mat := ⟨100, 200, image_data⟩ with hnote
  have hscore : ∀ t ∈ templates,
      templateScore cv note t = some (cv.ccoeffNormed note t.image 0 0) := by
    intro t ht
    obtain ⟨_, h1, h2⟩ := hvalid t ht
    exact templateScore_same_size cv note t h1 h2
  obtain ⟨⟨m, b⟩, hloop⟩ := matchLoop_isSome cv note templates 0 "None"
    (fun t ht => ⟨_, hscore t ht⟩)
  obtain ⟨best, hbest, hmax⟩ := exists_best (fun t => cv.ccoeffNormed note t.image 0 0)
    templates hne
  obtain ⟨hall, h0, hcase⟩ := matchLoop_spec cv note templates 0 "None" m b hloop
  have hle : ∀ t ∈ templates, cv.ccoeffNormed note t.image 0 0 ≤ m := by
    intro t ht
    obtain ⟨s, hs, hsm⟩ := hall t ht
    rw [hscore t ht] at hs
    cases hs
    exact hsm
  have hres : match_note cv templates image_data 100 200 =
      some (if m < 7 / 10 then "None" else b) := by
    simp only [match_note, match_note_at_eq, ← hnote, hloop, Option.map_some']
  refine ⟨_, best, hres, hbest, hmax, ?_, ?_⟩
  · rcases hcase with ⟨hm, hb⟩ | ⟨hpos, pre, t, post, hsplit, hts, hb, _⟩
    · subst hm hb
      have : cv.ccoeffNormed note best.image 0 0 < 7 / 10 :=
        lt_of_le_of_lt (hle best hbest) (by norm_num)
      simp [this]
    · have htmem : t ∈ templates := by rw [hsplit]; simp
      rw [hscore t htmem] at hts
      cases hts
      have heq : cv.ccoeffNormed note best.image 0 0 = cv.ccoeffNormed note t.image 0 0 :=
        le_antisymm (hle best hbest) (hmax t htmem)
      rw [heq]
      have hbN : b ≠ "None" := by
        rw [hb]; exact denominations_ne_None _ (hvalid t htmem).1
      by_cases hlt : cv.ccoeffNormed note t.image 0 0 < 7 / 10
      · simp [hlt]
      · simp [hlt, hbN]
  · rintro ⟨u, hu, hge⟩
    have hm : ¬ m < 7 / 10 := not_lt.mpr (le_trans hge (hle u hu))
    rcases hcase with ⟨hm0, _⟩ | ⟨_, pre, t, post, hsplit, _, hb, _⟩
    · exfalso
      rw [hm0] at hm
      exact hm (by norm_num)
    · have htmem : t ∈ templates := by rw [hsplit]; simp
      simp only [hm, if_false]
      exact ⟨by rw [hb]; exact denominations_ne_None _ (hvalid t htmem).1, t, htmem, hb⟩

/-- C1 at a concrete input: a store of two templates and a probe equal to the second. -/
theorem match_note_none_iff_max_below_threshold_witness :
    ∃ r best, match_note sampleCv [⟨"100", flat 10⟩, ⟨"200", flat 200⟩]
        (flat 200).data 100 200 = some r ∧
      best ∈ [(⟨"100", flat 10⟩ : NoteTemplate), ⟨"200", flat 200⟩] ∧
      (∀ t ∈ [(⟨"100", flat 10⟩ : NoteTemplate), ⟨"200", flat 200⟩],
        sampleCv.ccoeffNormed ⟨100, 200, (flat 200).data⟩ t.image 0 0 ≤
        sampleCv.ccoeffNormed ⟨100, 200, (flat 200).data⟩ best.image 0 0) ∧
      (r = "None" ↔ sampleCv.ccoeffNormed ⟨100, 200, (flat 200).data⟩ best.image 0 0 < 7 / 10) ∧
      ((∃ t ∈ [(⟨"100", flat 10⟩ : NoteTemplate), ⟨"200", flat 200⟩],
          7 / 10 ≤ sampleCv.ccoeffNormed ⟨100, 200, (flat 200).data⟩ t.image 0 0) →
        r ≠ "None" ∧ ∃ t ∈ [(⟨"100", flat 10⟩ : NoteTemplate), ⟨"200", flat 200⟩],
          r = t.denomination) :=
  match_note_none_iff_max_below_threshold sampleCv [⟨"100", flat 10⟩, ⟨"200", flat 200⟩]
    (flat 200).data 100 200 (by simp) (validStore_flat 10 200) rfl rfl

/-- C2. Whenever `match_note` returns a label other than "None", the store splits as
`pre ++ t :: post` where the label is the denomination of `t`, the score of `t` is an
upper bound of the scores of all templates, and every template before `t` scores
strictly less: `t` is the first template, in store order, that attains the maximum. -/
theorem match_note_label_is_first_maximum (cv : OpenCV) (templates : List NoteTemplate)
    (image_data : List Nat) (rows cols : Nat) (r : String)
    (hres : match_note cv templates image_data rows cols = some r) (hlabel : r ≠ "None") :
    ∃ pre t post s, templates = pre ++ t :: post ∧ r = t.denomination ∧
      templateScore cv ⟨rows, cols, image_data⟩ t = some s ∧
      (∀ u ∈ templates, ∃ su, templateScore cv ⟨rows, cols, image_data⟩ u = some su ∧ su ≤ s) ∧
      (∀ u ∈ pre, ∃ su, templateScore cv ⟨rows, cols, image_data⟩ u = some su ∧ su < s) := by
  simp only [match_note, match_note_at_eq] at hres
  cases hloop : matchLoop cv ⟨rows, cols, image_data⟩ templates 0 "None" with
  | none => rw [hloop] at hres; simp at hres
  | some p =>
    obtain ⟨m, b⟩ := p
    rw [hloop] at hres
    simp only [Option.map_some', Option.some.injEq] at hres
    have hm : ¬ m < 7 / 10 := by
      intro hlt
      rw [if_pos hlt] at hres
      exact hlabel hres.symm
    rw [if_neg hm] at hres
    obtain ⟨hall, _, hcase⟩ := matchLoop_spec cv _ templates 0 "None" m b hloop
    rcases hcase with ⟨hm0, _⟩ | ⟨_, pre, t, post, hsplit, hts, hb, hpre⟩
    · exfalso
      rw [hm0] at hm
      exact hm (by norm_num)
    · exact ⟨pre, t, post, m, hsplit, by rw [← hres, hb], hts, hall, hpre⟩

theorem match_note_tieStore :
    match_note sampleCv tieStore (flat 200).data 100 200 = some "200" := by
  simp only [match_note, match_note_at, matchLoop, matchTemplate, minMaxLoc, sampleCv, tieStore]
  simp [firstPixel_flat, pixelAt_flat_origin, flat_rows, flat_cols, range_one]
  norm_num

/-- C2 at a concrete input: two templates tie at the maximum, the earlier one is named. -/
theorem match_note_label_is_first_maximum_witness :
    ∃ pre t post s, tieStore = pre ++ t :: post ∧ "200" = t.denomination ∧
      templateScore sampleCv ⟨100, 200, (flat 200).data⟩ t = some s ∧
      (∀ u ∈ tieStore, ∃ su,
        templateScore sampleCv ⟨100, 200, (flat 200).data⟩ u = some su ∧ su ≤ s) ∧
      (∀ u ∈ pre, ∃ su,
        templateScore sampleCv ⟨100, 200, (flat 200).data⟩ u = some su ∧ su < s) :=
  match_note_label_is_first_maximum sampleCv tieStore (flat 200).data 100 200 "200"
    match_note_tieStore (by decide)

/-- C9. With the constant of the last comparison as a parameter: `match_note` is the
instance 7/10; a probe that is "None" at a threshold is "None" at every larger one; and
two thresholds that both yield a label yield the same label. -/
theorem match_note_threshold_monotone (cv : OpenCV) (templates : List NoteTemplate)
    (image_data : List Nat) (rows cols : Nat) (t1 t2 : ℚ) (h : t1 < t2) :
    match_note cv templates image_data rows cols =
        match_note_at (7 / 10) cv templates image_data rows cols ∧
      (match_note_at t1 cv templates image_data rows cols = some "None" →
        match_note_at t2 cv templates image_data rows cols = some "None") ∧
      (∀ l1 l2, match_note_at t1 cv templates image_data rows cols = some l1 →
        match_note_at t2 cv templates image_data rows cols = some l2 →
        l1 ≠ "None" → l2 ≠ "None" → l1 = l2) := by
  refine ⟨rfl, ?_, ?_⟩
  · simp only [match_note_at_eq]
    cases hloop : matchLoop cv ⟨rows, cols, image_data⟩ templates 0 "None" with
    | none => simp
    | some p =>
      obtain ⟨m, b⟩ := p
      simp only [Option.map_some', Option.some.injEq]
      intro h1
      by_cases hm2 : m < t2
      · rw [if_pos hm2]
      · have hm1 : ¬ m < t1 := fun hlt => hm2 (lt_trans hlt h)
        rw [if_neg hm1] at h1
        rw [if_neg hm2, h1]
  · intro l1 l2
    simp only [match_note_at_eq]
    cases hloop : matchLoop cv ⟨rows, cols, image_data⟩ templates 0 "None" with
    | none => simp
    | some p =>
      obtain ⟨m, b⟩ := p
      simp only [Option.map_some', Option.some.injEq]
      intro h1 h2 hl1 hl2
      by_cases hm1 : m < t1
      · rw [if_pos hm1] at h1; exact absurd h1.symm hl1
      · by_cases hm2 : m < t2
        · rw [if_pos hm2] at h2; exact absurd h2.symm hl2
        · rw [if_neg hm1] at h1
          rw [if_neg hm2] at h2
          rw [← h1, ← h2]

/-- C9 at a concrete input: thresholds 1/2 and 7/10 on the tie example. -/
theorem match_note_threshold_monotone_witness :
    match_note sampleCv tieStore (flat 200).data 100 200 =
        match_note_at (7 / 10) sampleCv tieStore (flat 200).data 100 200 ∧
      (match_note_at (1 / 2) sampleCv tieStore (flat 200).data 100 200 = some "None" →
        match_note_at (7 / 10) sampleCv tieStore (flat 200).data 100 200 = some "None") ∧
      (∀ l1 l2, match_note_at (1 / 2) sampleCv tieStore (flat 200).data 100 200 = some l1 →
        match_note_at (7 / 10) sampleCv tieStore (flat 200).data 100 200 = some l2 →
        l1 ≠ "None" → l2 ≠ "None" → l1 = l2) :=
  match_note_threshold_monotone sampleCv tieStore (flat 200).data 100 200 (1 / 2) (7 / 10)
    (by norm_num)

/-! ## The correlation coefficient: bounds and values -/

/-- C4, counterexample. On the empty store `match_note` does not fail and returns "None",
the very value it returns on a store whose only template scores 65/255 against the
probe: the two outcomes are equal. -/
theorem match_note_empty_store_counterexample :
    match_note sampleCv [] (flat 200).data 100 200 = some "None" ∧
      sampleCv.ccoeffNormed ⟨100, 200, (flat 200).data⟩ (flat 10) 0 0 = 65 / 255 ∧
      match_note sampleCv [⟨"100", flat 10⟩] (flat 200).data 100 200 = some "None" ∧
      match_note sampleCv [] (flat 200).data 100 200 =
        match_note sampleCv [⟨"100", flat 10⟩] (flat 200).data 100 200 := by
  have h1 : match_note sampleCv [] (flat 200).data 100 200 = some "None" := by
    simp only [match_note, match_note_at, matchLoop]
    norm_num
  have h2 : match_note sampleCv [⟨"100", flat 10⟩] (flat 200).data 100 200 = some "None" := by
    simp only [match_note, match_note_at, matchLoop, matchTemplate, minMaxLoc, sampleCv]
    simp [firstPixel_flat, pixelAt_flat_origin, flat_rows, flat_cols, range_one]
    norm_num
  refine ⟨h1, ?_, h2, by rw [h1, h2]⟩
  simp [sampleCv, firstPixel_flat, pixelAt_flat_origin]

/-- C4, amended. On the empty store `match_note` returns "None" for every probe, and
`run_webcam_detection` prints "[ERROR] Templates not loaded!" and does nothing else,
whatever the camera would deliver. -/
theorem empty_store_not_ready (cv : OpenCV) (image_data : List Nat) (rows cols : Nat)
    (cameraOpened : Bool) (captures : List Capture) :
    match_note cv [] image_data rows cols = some "None" ∧
      run_webcam_detection cv [] cameraOpened captures =
        [Event.print "[ERROR] Templates not loaded!"] := by
  constructor
  · simp only [match_note, match_note_at, matchLoop]
    norm_num
  · simp [run_webcam_detection]

/-- C5, counterexample. A probe of 101 rows against a store of one 200x100 template:
`match_note` does not fail; the two placements score 55/255 and 1, and the label "200"
is returned on the strength of the better one. -/
theorem match_note_dimension_mismatch_counterexample :
    tallProbe.rows ≠ 100 ∧
      sampleCv.ccoeffNormed tallProbe (flat 200) 0 0 = 55 / 255 ∧
      sampleCv.ccoeffNormed tallProbe (flat 200) 0 1 = 1 ∧
      match_note sampleCv [⟨"200", flat 200⟩] tallProbe.data tallProbe.rows tallProbe.cols
        = some "200" := by
  have p0 : pixelAt tallProbe 0 0 = 0 := rfl
  have p1 : pixelAt tallProbe 1 0 = 200 := by decide
  have q0 : pixelAt ⟨101, 200, tallProbe.data⟩ 0 0 = 0 := rfl
  have q1 : pixelAt ⟨101, 200, tallProbe.data⟩ 1 0 = 200 := by decide
  have hr : tallProbe.rows = 101 := rfl
  have hc : tallProbe.cols = 200 := rfl
  refine ⟨by decide, ?_, ?_, ?_⟩
  · simp [sampleCv, firstPixel_flat, p0]
  · simp [sampleCv, firstPixel_flat, p1]
  · simp only [match_note, match_note_at, matchLoop, matchTemplate, minMaxLoc, sampleCv, hr, hc]
    simp [firstPixel_flat, q0, q1, flat_rows, flat_cols, range_one, range_two]
    norm_num

/-- C5, amended. On a store of 200x100 templates and a probe of at least 100 rows and 200
columns (equal or larger in each dimension) `match_note` returns: "None" exactly when
every placement of every template in the probe scores below 7/10, a label otherwise. -/
theorem match_note_scores_all_placements (cv : OpenCV) (templates : List NoteTemplate)
    (image_data : List Nat) (rows cols : Nat)
    (hvalid : ValidStore templates) (hrows : 100 ≤ rows) (hcols : 200 ≤ cols) :
    ∃ r, match_note cv templates image_data rows cols = some r ∧
      (r = "None" ↔ ∀ t ∈ templates, ∀ x y, y < rows - 100 + 1 → x < cols - 200 + 1 →
        cv.ccoeffNormed ⟨rows, cols, image_data⟩ t.image x y < 7 / 10) := by
  set note : Mat := ⟨rows, cols, image_data⟩ with hnote
  obtain ⟨⟨m, b⟩, hloop⟩ := matchLoop_isSome cv note templates 0 "None"
    (templateScore_isSome_of_valid cv note templates hvalid hrows hcols)
  obtain ⟨hall, _, hcase⟩ := matchLoop_spec cv note templates 0 "None" m b hloop
  have hres : match_note cv templates image_data rows cols =
      some (if m < 7 / 10 then "None" else b) := by
    simp only [match_note, match_note_at_eq, ← hnote, hloop, Option.map_some']
  have hslide : ∀ t ∈ templates, ∃ s, templateScore cv note t = some s ∧
      (∃ x y, y < rows - 100 + 1 ∧ x < cols - 200 + 1 ∧ s = cv.ccoeffNormed note t.image x y) ∧
      (∀ x y, y < rows - 100 + 1 → x < cols - 200 + 1 → cv.ccoeffNormed note t.image x y ≤ s) := by
    intro t ht
    obtain ⟨_, h1, h2⟩ := hvalid t ht
    have := templateScore_sliding cv note t (by rw [h1]; exact hrows) (by rw [h2]; exact hcols)
    rw [h1, h2] at this
    exact this
  refine ⟨_, hres, ?_⟩
  constructor
  · intro hnone t ht x y hy hx
    obtain ⟨s, hs, _, hmax⟩ := hslide t ht
    obtain ⟨s', hs', hle⟩ := hall t ht
    rw [hs] at hs'
    cases hs'
    have hm : m < 7 / 10 := by
      by_contra hm
      rw [if_neg hm] at hnone
      rcases hcase with ⟨hm0, _⟩ | ⟨_, pre, u, post, hsplit, _, hb, _⟩
      · rw [hm0] at hm; exact hm (by norm_num)
      · have humem : u ∈ templates := by rw [hsplit]; simp
        exact denominations_ne_None _ (hvalid u humem).1 (by rw [← hb, hnone])
    exact lt_of_le_of_lt (le_trans (hmax x y hy hx) hle) hm
  · intro hbelow
    have hm : m < 7 / 10 := by
      rcases hcase with ⟨hm0, _⟩ | ⟨_, pre, u, post, hsplit, hus, _, _⟩
      · rw [hm0]; norm_num
      · have humem : u ∈ templates := by rw [hsplit]; simp
        obtain ⟨s, hs, ⟨x, y, hy, hx, hxy⟩, _⟩ := hslide u humem
        rw [hus] at hs
        cases hs
        rw [hxy]
        exact hbelow u humem x y hy hx
    rw [if_pos hm]

/-- C5, amended, at a concrete input: the probe of 101 rows and a store of one template. -/
theorem match_note_scores_all_placements_witness :
    ∃ r, match_note sampleCv [⟨"200", flat 200⟩] tallProbe.data 101 200 = some r ∧
      (r = "None" ↔ ∀ t ∈ [(⟨"200", flat 200⟩ : NoteTemplate)], ∀ x y,
        y < 101 - 100 + 1 → x < 200 - 200 + 1 →
        sampleCv.ccoeffNormed ⟨101, 200, tallProbe.data⟩ t.image x y < 7 / 10) :=
  match_note_scores_all_placements sampleCv [⟨"200", flat 200⟩] tallProbe.data 101 200
    (by
      intro t ht
      simp only [List.mem_singleton] at ht
      subst ht
      exact ⟨by simp [denominations], rfl, rfl⟩)
    (by decide) (by decide)

/-! ## The loading loops and the claims about `load_templates` -/

/-- C8. The store after `load_templates` does not depend on the store before it: the
call has the same outcome as on the empty store, and loading the same dataset a second
time has the outcome of loading it once. -/
theorem load_templates_replaces_store (cv : OpenCV) (fs : FileSystem)
    (prev : List NoteTemplate) (datasetFolder : String) :
    load_templates cv fs prev datasetFolder = load_templates cv fs [] datasetFolder ∧
      (load_templates cv fs prev datasetFolder).bind
          (fun store => load_templates cv fs store datasetFolder) =
        load_templates cv fs prev datasetFolder := by
  have hclear : ∀ a b : List NoteTemplate,
      load_templates cv fs a datasetFolder = load_templates cv fs b datasetFolder := by
    intro a b
    simp only [load_templates, clear]
  refine ⟨hclear prev [], ?_⟩
  cases h : load_templates cv fs prev datasetFolder with
  | none => rfl
  | some store =>
    show load_templates cv fs store datasetFolder = some store
    rw [hclear store prev, h]

theorem systemCalls_append (xs ys : List Event) :
    systemCalls (xs ++ ys) = systemCalls xs ++ systemCalls ys := by
  induction xs with
  | nil => rfl
  | cons e rest ih =>
    cases e <;> simp [systemCalls, ih]

theorem sayCommand_injective : Function.Injective sayCommand := by
  intro a b h
  have hd := congrArg String.data h
  simp only [sayCommand, String.data_append, List.append_cancel_left_eq,
    List.append_cancel_right_eq] at hd
  exact String.ext hd

theorem debounce_chain :
    ∀ (ds : List String) (last : String),
      "None" ∉ debounce last ds ∧ List.Chain (fun a b => a ≠ b) last (debounce last ds) := by
  intro ds
  induction ds with
  | nil => intro last; exact ⟨by simp [debounce], List.Chain.nil⟩
  | cons d rest ih =>
    intro last
    by_cases h : d ≠ "None" ∧ d ≠ last
    · have hd : debounce last (d :: rest) = d :: debounce d rest := by
        simp only [debounce, if_pos h]
      rw [hd]
      refine ⟨?_, List.Chain.cons (Ne.symm h.2) (ih d).2⟩
      intro hmem
      rcases List.mem_cons.mp hmem with h0 | h0
      · exact h.1 h0.symm
      · exact (ih d).1 h0
    · have hd : debounce last (d :: rest) = debounce last rest := by
        simp only [debounce, if_neg h]
      rw [hd]
      exact ih last

/-- The shell commands of the loop are the announcements the debounce machine makes on
the detection results of the loop, started in the state `lastAnnounced`. -/
theorem webcamLoop_debounce (cv : OpenCV) (templates : List NoteTemplate) :
    ∀ (captures : List Capture) (lastAnnounced : String),
      systemCalls (webcamLoop cv templates lastAnnounced captures) =
        (debounce lastAnnounced (detections cv templates captures)).map sayCommand := by
  intro captures
  induction captures with
  | nil => intro last; rfl
  | cons c rest ih =>
    intro last
    by_cases hempty : c.frame.empty = true
    · simp only [webcamLoop, detections, hempty, if_true]
      exact ih last
    · cases hdet : match_note cv templates (toNote cv c.frame).data (toNote cv c.frame).rows
          (toNote cv c.frame).cols with
      | none =>
        simp only [webcamLoop, detections, hempty, hdet]
        rfl
      | some detected =>
        have hloop : webcamLoop cv templates last (c :: rest) =
            [Event.putText detected, Event.imshow "Currency Detection",
              Event.imshow "Warped Note"]
            ++ (announce last detected).2
            ++ (if c.key = 27 then [] else webcamLoop cv templates (announce last detected).1 rest) := by
          simp only [webcamLoop, hempty, hdet]
          rfl
        have hdets : detections cv templates (c :: rest) =
            detected :: (if c.key = 27 then [] else detections cv templates rest) := by
          simp only [detections, hempty, hdet]
          rfl
        have htail : ∀ last' : String,
            systemCalls (if c.key = 27 then [] else webcamLoop cv templates last' rest) =
              (debounce last' (if c.key = 27 then [] else detections cv templates rest)).map
                sayCommand := by
          intro last'
          by_cases hkey : c.key = 27
          · rw [if_pos hkey, if_pos hkey]; rfl
          · rw [if_neg hkey, if_neg hkey]; exact ih last'
        rw [hloop, hdets, systemCalls_append, systemCalls_append]
        by_cases hann : detected ≠ "None" ∧ detected ≠ last
        · have hstep : announce last detected =
              (detected, [Event.system (sayCommand detected)]) := by
            unfold announce
            rw [if_pos hann]
          have hd : ∀ ds, debounce last (detected :: ds) = detected :: debounce detected ds := by
            intro ds
            simp only [debounce, if_pos hann]
          rw [hstep, hd, htail]
          rfl
        · have hstep : announce last detected = (last, []) := by
            unfold announce
            rw [if_neg hann]
          have hd : ∀ ds, debounce last (detected :: ds) = debounce last ds := by
            intro ds
            simp only [debounce, if_neg hann]
          rw [hstep, hd, htail]
          rfl

/-- C10. The announce step issues the command for the detected label and remembers that
label exactly when the label is not "None" and differs from `lastAnnounced`; otherwise it
issues nothing and leaves `lastAnnounced` as it is. The shell commands of
`run_webcam_detection` are the announcements the debounce machine makes, started from the
empty `lastAnnounced`, on the detection results of the frames (none when the store is
empty or the camera does not open). For every start state and every sequence of
detection results the machine never announces "None" and never announces the label it
announced last; so the announced labels of a run contain no "None" and no two equal
neighbours. Distinct labels give distinct commands. -/
theorem announce_debounce :
    (∀ lastAnnounced detected : String,
        (detected ≠ "None" ∧ detected ≠ lastAnnounced →
          announce lastAnnounced detected = (detected, [Event.system (sayCommand detected)])) ∧
        (¬ (detected ≠ "None" ∧ detected ≠ lastAnnounced) →
          announce lastAnnounced detected = (lastAnnounced, []))) ∧
      (∀ (cv : OpenCV) (templates : List NoteTemplate) (cameraOpened : Bool)
          (captures : List Capture),
        systemCalls (run_webcam_detection cv templates cameraOpened captures) =
          (debounce "" (if templates.isEmpty ∨ cameraOpened = false then []
            else detections cv templates captures)).map sayCommand) ∧
      (∀ (last : String) (ds : List String),
        "None" ∉ debounce last ds ∧ List.Chain (fun a b => a ≠ b) last (debounce last ds) ∧
        List.Chain' (fun a b => a ≠ b) (debounce last ds)) ∧
      Function.Injective sayCommand := by
  refine ⟨?_, ?_, ?_, sayCommand_injective⟩
  · intro last detected
    constructor
    · intro h; unfold announce; rw [if_pos h]
    · intro h; unfold announce; rw [if_neg h]
  · intro cv templates cameraOpened captures
    unfold run_webcam_detection
    by_cases h1 : templates.isEmpty = true
    · rw [if_pos h1, if_pos (Or.inl h1)]; rfl
    · rw [if_neg h1]
      cases cameraOpened with
      | false => simp [systemCalls, debounce]
      | true =>
        have hno : ¬ (templates.isEmpty = true ∨ true = false) := by simp [h1]
        rw [if_neg hno]
        simp only [Bool.not_true, Bool.false_eq_true, if_false]
        exact webcamLoop_debounce cv templates captures ""
  · intro last ds
    obtain ⟨h1, h2⟩ := debounce_chain ds last
    refine ⟨h1, h2, ?_⟩
    have hc : List.Chain' (fun a b : String => a ≠ b) (last :: debounce last ds) := h2
    exact (List.chain'_cons'.mp hc).2

end CurrencyDetection
